import Mathlib

/-!
# MarketMatrix — verification of the temporal snapshot engine

Shallow embedding of the core of the MarketMatrix frontend:

* `src/services/marketData.ts` — `fetchHistory` (normalizer, snapshot merger,
  history store construction, error handling);
* `src/hooks/useMarketData.ts` — `useMarketData` (playback controller and the
  derived reads over the history store);
* `src/components/TimeTravelFooter.tsx` — the 24-hour window filter and its
  two index translations;
* `src/utils/analytics.ts` — `calculateSentiment`.

Modelling conventions:

* JavaScript numbers that can be `NaN` (timestamps produced by
  `new Date(x).getTime()`) are modelled as `Option Int`: `none` is `NaN`,
  `some t` a finite epoch-millisecond value.  The comparison operators on
  them follow IEEE semantics (`NaN` compares false, `NaN === NaN` is false).
* A possibly-absent JSON field is an `Option`; `String(v)` applied to an
  absent field produces the literal text `"undefined"`, as in JavaScript.
* Number-to-string rendering is abstracted: raw scalar fields are carried as
  their rendered text, so `String(v)` of a present value is the identity.
* `Array.prototype.sort` is modelled by the stable `List.mergeSort` with the
  ECMAScript `SortCompare` ordering derived from the comparator
  `(a, b) => a.timestamp - b.timestamp` (a `NaN` comparator value is treated
  as `0`, i.e. "equal").
* `Date.now()` is passed in as an explicit `now : Int` parameter; the locale
  label formatter `toLocaleTimeString` is an explicit function parameter
  `fmt`, and the `Math.random`-based `generateMarketCap` synthesis is an
  explicit function parameter `gen` (its arguments are the record's ticker
  and sector, exactly as at the call site).
-/

namespace MarketMatrix

/-- A JavaScript number used as a timestamp: `none` models `NaN`
(an unparseable date), `some t` a finite epoch-millisecond value. -/
abbrev JsTime := Option Int

/-- JavaScript `a <= b` on timestamps: false whenever either side is `NaN`. -/
def jsNumLe : JsTime → JsTime → Prop
  | some a, some b => a ≤ b
  | some _, none => False
  | none, _ => False

instance : ∀ a b : JsTime, Decidable (jsNumLe a b)
  | some a, some b => inferInstanceAs (Decidable (a ≤ b))
  | some _, none => isFalse fun h => h
  | none, some _ => isFalse fun h => h
  | none, none => isFalse fun h => h

/-- JavaScript `a < b` on timestamps: false whenever either side is `NaN`. -/
def jsNumLt : JsTime → JsTime → Prop
  | some a, some b => a < b
  | some _, none => False
  | none, _ => False

instance : ∀ a b : JsTime, Decidable (jsNumLt a b)
  | some a, some b => inferInstanceAs (Decidable (a < b))
  | some _, none => isFalse fun h => h
  | none, some _ => isFalse fun h => h
  | none, none => isFalse fun h => h

/-- JavaScript `a >= b` on timestamps, `Bool`-valued as used in a `filter`
callback: false whenever either side is `NaN`. -/
def jsNumGeB : JsTime → JsTime → Bool
  | some a, some b => b ≤ a
  | _, _ => false

/-- JavaScript strict equality `a === b` on timestamps: `NaN === NaN` is
false. -/
def jsNumEqB : JsTime → JsTime → Bool
  | some a, some b => a == b
  | _, _ => false

/-- JavaScript `String(v)` for a possibly-absent raw field whose rendered
text is carried in the model: an absent value (`undefined`) renders as the
literal text `"undefined"`. -/
def jsString : Option String → String
  | some s => s
  | none => "undefined"

/-- JavaScript `arr[i]` for an arbitrary (possibly negative or
out-of-range) index: `none` models `undefined`. -/
def jsIndex (l : List α) (i : Int) : Option α :=
  if i < 0 then none else l.get? i.toNat

/-- JavaScript `v || d` specialised to a possibly-undefined string `v`:
`undefined` and the empty string are falsy, any other string is truthy. -/
def jsOrString (v : Option String) (d : String) : String :=
  match v with
  | some s => if s = "" then d else s
  | none => d

/-- The canonical entity shape (`Stock` from `src/types.ts`, as it exists at
runtime after `fetchHistory`'s normalization).  The fields the normalizer
forces through `String(...)` are definite strings; the fields that are only
copied by object spread (`ticker`, `sector`, `status`, `signal`) are carried
as they came from the raw JSON, hence possibly `undefined` (`none`). -/
structure Stock where
  ticker : Option String
  sector : Option String
  status : Option String
  signal : Option String
  current_price : String
  daily_change : String
  volume : String
  market_cap : String
  strategy_return : String
  rsi : String
  sma_50 : String
  sma_200 : String
deriving DecidableEq, Repr

/-!
#### IEEE binary64 arithmetic

`(bullishCount / stocks.length) * 100` is evaluated by JavaScript in IEEE
binary64 doubles, whose rounding visibly changes `Math.round`'s result
(e.g. 29 bullish of 200: the double product is strictly below 14.5).  Both
operations are correctly rounded (round to nearest, ties to even), so they
are modelled exactly: a nonnegative double is the dyadic rational
`m * 2 ^ e`, carried as the pair `(m, e) : Nat × Int`, and each operation
rounds the exact quotient/product to the nearest representable dyadic.
The operands here are nonnegative (array counts and their ratios), so only
nonnegative values need representing.  Array lengths in JavaScript are
below `2^32`, so every count is an exact double and all numerators and
denominators stay far inside the fuel bound of `natLog2` (exact up to
`2^129`).
-/

/-- `floor (log2 n)` for `1 ≤ n < 2^129`, by a fuelled scan (kept
structural so that the kernel can evaluate it inside `decide`). -/
def natLog2 (n : Nat) : Nat :=
  (List.range 128).foldl (fun acc i => if 2 ^ (i + 1) ≤ n then i + 1 else acc) 0

/-- Round `num / den` (with `den ≠ 0`) to the nearest integer, ties to
even — the IEEE default rounding of a mantissa. -/
def rnEven (num den : Nat) : Nat :=
  let q := num / den
  let r := num % den
  if 2 * r < den then q
  else if den < 2 * r then q + 1
  else if q % 2 = 0 then q else q + 1

/-- Whether `num / den < 2 ^ c`. -/
def ratLtPow2 (num den : Nat) (c : Int) : Bool :=
  if 0 ≤ c then num < den * 2 ^ c.toNat else num * 2 ^ (-c).toNat < den

/-- `floor (log2 (num / den))` for positive `num / den`
(both below `2^129`). -/
def ratLog2 (num den : Nat) : Int :=
  let c : Int := (natLog2 num : Int) - (natLog2 den : Int)
  if ratLtPow2 num den c then c - 1 else c

/-- The IEEE binary64 double nearest to `num / den` (round to nearest,
ties to even), as the exact dyadic pair `(m, e)` with value `m * 2 ^ e`:
the quotient is scaled so its mantissa lies in `[2^52, 2^53)` and rounded
ties-to-even; quotients below `2^(-1022)` round at the subnormal quantum
`2^(-1074)`.  At the call sites the quotient is an array-count ratio in
`[0, 1]` or such a double scaled by `100`, so overflow cannot occur and
the subnormal branch never fires; it is included for totality. -/
def roundB64Core (num den : Nat) : Nat × Int :=
  if num = 0 ∨ den = 0 then (0, 0)
  else
    let k := ratLog2 num den
    if k < -1022 then (rnEven (num * 2 ^ 1074) den, -1074)
    else
      let sh : Int := 52 - k
      if 0 ≤ sh then (rnEven (num * 2 ^ sh.toNat) den, k - 52)
      else (rnEven num (den * 2 ^ (-sh).toNat), k - 52)

/-- Binary64 multiplication of the double `(m, e)` by the exact constant
`100`: form the exact product `100 * m * 2 ^ e` and round it back to the
nearest double. -/
def b64Mul100 (d : Nat × Int) : Nat × Int :=
  if d.2 < 0 then roundB64Core (100 * d.1) (2 ^ (-d.2).toNat)
  else roundB64Core (100 * d.1 * 2 ^ d.2.toNat) 1

/-- ECMAScript `Math.round` on the nonnegative double `(m, e)`: the integer
closest to the double's exact value, ties toward `+∞` — i.e.
`⌊m * 2 ^ e + 1/2⌋` (the ES spec defines it on the mathematical value, not
via a float addition of `0.5`). -/
def jsFloorHalfUp (d : Nat × Int) : Nat :=
  if d.2 < 0 then
    let den := 2 ^ (-d.2).toNat
    (2 * d.1 + den) / (2 * den)
  else d.1 * 2 ^ d.2.toNat

/-- `Math.round((bullishCount / stocks.length) * 100)` with the division
and the multiplication evaluated in binary64, as JavaScript evaluates
them. -/
def jsPercent (bullishCount total : Nat) : Nat :=
  jsFloorHalfUp (b64Mul100 (roundB64Core bullishCount total))

/-- The exact-rational reading of `round(bullish / total * 100)` (round
half up over the mathematical quotient): `⌊100b/t + 1/2⌋ = (200b + t) / (2t)`
— what `calculateSentiment` would return were the quotient not evaluated in
binary64. -/
def exactRoundPercent (bullishCount total : Nat) : Nat :=
  (200 * bullishCount + total) / (2 * total)

/-- `calculateSentiment` from `src/utils/analytics.ts`. -/
structure Sentiment where
  bullish : Nat
  bearish : Nat
  percent : Nat
deriving DecidableEq, Repr

def calculateSentiment (stocks : List Stock) : Sentiment :=
  if stocks.length = 0 then { bullish := 0, bearish := 0, percent := 0 }
  else
    let bullishCount := (stocks.filter fun s => s.status == some "BULLISH").length
    { bullish := bullishCount
      bearish := stocks.length - bullishCount
      percent := jsPercent bullishCount stocks.length }

/-- A raw element of the feed's `stockData` array, before normalization.
Every field may be absent (`none`); a present scalar is carried as its
rendered text (see the header note on number-to-string abstraction). -/
structure RawStock where
  ticker : Option String
  sector : Option String
  status : Option String
  signal : Option String
  current_price : Option String
  daily_change : Option String
  volume : Option String
  market_cap : Option String
  strategy_return : Option String
  rsi : Option String
  sma_50 : Option String
  sma_200 : Option String
deriving DecidableEq, Repr

/-- A raw element of a historical group's `stocks` array (called
`partialStock` in the source): a partial record carrying an identifier and
a subset of entity fields.  `current_price` stands for the extra fields such
a record may carry beyond the five the merge names explicitly; the object
spread treats all of them alike. -/
structure PartialStock where
  ticker : Option String
  status : Option String
  signal : Option String
  sma_50 : Option String
  sma_200 : Option String
  current_price : Option String
deriving DecidableEq, Repr

/-- A raw element of `historicalSnapshots`.  `timestamp` carries the result
of `new Date(snap.timestamp).getTime()`: `none` when the raw timestamp does
not parse (`NaN`), `some t` the parsed epoch milliseconds. -/
structure RawSnap where
  timestamp : JsTime
  stocks : List PartialStock
deriving DecidableEq, Repr

/-- The parsed JSON document.  An absent `historicalSnapshots` field is
already folded to `[]`, as by the source's `rawData.historicalSnapshots || []`. -/
structure RawData where
  stockData : List RawStock
  historicalSnapshots : List RawSnap
deriving DecidableEq, Repr

/-- Step 1 of `fetchHistory`: normalize one raw `stockData` record into a
`Stock`.  `gen` is `generateMarketCap` (the `Math.random`-based synthesis,
kept abstract), applied to `(item.ticker, item.sector)` when
`item.market_cap` is falsy (absent, or rendering as the empty string). -/
def normalizeStock (gen : Option String → Option String → String)
    (item : RawStock) : Stock :=
  { ticker := item.ticker
    sector := item.sector
    status := item.status
    signal := item.signal
    current_price := jsString item.current_price
    daily_change := jsString item.daily_change
    volume := jsString item.volume
    market_cap :=
      match item.market_cap with
      | some s => if s = "" then gen item.ticker item.sector else s
      | none => gen item.ticker item.sector
    strategy_return := jsString item.strategy_return
    rsi := jsString item.rsi
    sma_50 := jsString item.sma_50
    sma_200 := jsString item.sma_200 }

/-- The merge of one partial record with its matching baseline entity:
`\x7b...baseStock, ...partialStock, sma_50: String(partialStock.sma_50),
sma_200: String(partialStock.sma_200), status: partialStock.status,
signal: partialStock.signal\x7d`.  The spread copies every field present on
the partial record over the baseline's; the four explicit properties are
then written unconditionally (so an absent `status`/`signal` overwrites the
baseline value with `undefined`, and an absent `sma` becomes the text
`"undefined"`). -/
def mergeStock (base : Stock) (p : PartialStock) : Stock :=
  { ticker := p.ticker.or base.ticker
    sector := base.sector
    status := p.status
    signal := p.signal
    current_price := p.current_price.getD base.current_price
    daily_change := base.daily_change
    volume := base.volume
    market_cap := base.market_cap
    strategy_return := base.strategy_return
    rsi := base.rsi
    sma_50 := jsString p.sma_50
    sma_200 := jsString p.sma_200 }

/-- Step 2's inner loop: `snap.stocks.map(...).filter(Boolean)` — look up
the baseline entity by identifier (`liveStocks.find`), discard the record
(`null`) when there is no match, merge otherwise. -/
def mergeGroup (liveStocks : List Stock) (parts : List PartialStock) :
    List Stock :=
  (parts.map fun p =>
      (liveStocks.find? fun s => s.ticker == p.ticker).map
        fun baseStock => mergeStock baseStock p).filterMap id

/-- One element of the history store. -/
structure MarketSnapshot where
  label : String
  timestamp : JsTime
  data : List Stock
deriving DecidableEq, Repr

/-- The ECMAScript `SortCompare` ordering induced by the comparator
`(a, b) => a.timestamp - b.timestamp`: `le a b` iff the comparator value is
`<= 0`, where a `NaN` comparator value (either timestamp unparseable) is
treated as `0`, i.e. "keep in either order". -/
def jsSortLe (a b : MarketSnapshot) : Bool :=
  match a.timestamp, b.timestamp with
  | some x, some y => x ≤ y
  | _, _ => true

/-- The restriction of `jsSortLe` to snapshots whose timestamps all parse:
a total, transitive comparator that agrees with `jsSortLe` on `NaN`-free
inputs (used to transfer `sorted_mergeSort` to the JavaScript comparator). -/
def numTsLe (a b : MarketSnapshot) : Bool :=
  a.timestamp.getD 0 ≤ b.timestamp.getD 0

/-- The history-store construction of `fetchHistory` on successfully parsed
JSON: normalize `stockData` into `liveStocks`, merge each historical group,
append the synthetic live snapshot (`label: 'Now (Live)'`,
`timestamp: Date.now()`), and sort by timestamp.  `fmt` models
`new Date(t).toLocaleTimeString([], \x7bhour: '2-digit', minute: '2-digit'\x7d)`;
`Array.prototype.sort` (a stable sort under `SortCompare`) is
`List.mergeSort jsSortLe`. -/
def buildHistory (fmt : JsTime → String)
    (gen : Option String → Option String → String)
    (rawData : RawData) (now : Int) : List MarketSnapshot :=
  let liveStocks := rawData.stockData.map (normalizeStock gen)
  let history := rawData.historicalSnapshots.map fun snap =>
    { label := fmt snap.timestamp
      timestamp := snap.timestamp
      data := mergeGroup liveStocks snap.stocks : MarketSnapshot }
  let liveSnapshot : MarketSnapshot :=
    { label := "Now (Live)", timestamp := some now, data := liveStocks }
  (history ++ [liveSnapshot]).mergeSort jsSortLe

/-- The possible outcomes of `fetch(DATA_URL)` + `response.json()` as seen
by `fetchHistory`'s `try` block. -/
inductive FetchOutcome where
  | networkError (msg : String)
  | httpError (statusText : String)
  | parseError (msg : String)
  | success (rawData : RawData)
deriving DecidableEq, Repr

/-- `fetchHistory`.  The first component is the returned history store; the
second is the list of `console.error` lines emitted (the `catch` block logs
and returns `[]`, so a failure is logged, never thrown — totality of this
function is the embedding of "never throws to the caller"). -/
def fetchHistory (fmt : JsTime → String)
    (gen : Option String → Option String → String)
    (o : FetchOutcome) (now : Int) : List MarketSnapshot × List String :=
  match o with
  | .networkError msg =>
      ([], ["Error fetching market history: " ++ msg])
  | .httpError statusText =>
      ([], ["Error fetching market history: Failed to fetch data: " ++ statusText])
  | .parseError msg =>
      ([], ["Error fetching market history: " ++ msg])
  | .success rawData => (buildHistory fmt gen rawData now, [])

/-- The state of the `useMarketData` hook after the initial load effect has
resolved.  `timeIndex` is a JavaScript number, so it is an `Int`
(`snapshots.length - 1` is `-1` for an empty store). -/
structure MarketDataState where
  history : List MarketSnapshot
  timeIndex : Int
  isPlaying : Bool
  loading : Bool
deriving DecidableEq, Repr

/-- The load effect: `setHistory(snapshots); setTimeIndex(snapshots.length - 1)`
("start at Live"), with `loading` cleared in `finally` and playback off. -/
def initLoad (snapshots : List MarketSnapshot) : MarketDataState :=
  { history := snapshots
    timeIndex := (snapshots.length : Int) - 1
    isPlaying := false
    loading := false }

/-- One firing of the playback interval: `setTimeIndex(prev => ...)`, which
stops (`setIsPlaying(false)`) and keeps `prev` when `prev >= history.length - 1`
and otherwise advances by one.  The interval exists only while `isPlaying`,
so a tick on a non-playing state is the identity. -/
def tick (st : MarketDataState) : MarketDataState :=
  if st.isPlaying then
    if st.timeIndex ≥ (st.history.length : Int) - 1 then
      { st with isPlaying := false }
    else { st with timeIndex := st.timeIndex + 1 }
  else st

/-- The derived `stocks` read: `[]` when the store is empty, otherwise
`history[timeIndex]?.data || []` (an out-of-range index yields `undefined`,
hence `[]`; a present `data` array is truthy even when empty). -/
def stocksOf (st : MarketDataState) : List Stock :=
  if st.history.length = 0 then []
  else ((jsIndex st.history st.timeIndex).map (·.data)).getD []

/-- The derived label read: `history[timeIndex]?.label || 'Loading...'`. -/
def currentSnapshotLabel (st : MarketDataState) : String :=
  jsOrString ((jsIndex st.history st.timeIndex).map (·.label)) "Loading..."

/-- `history.length > 0 && timeIndex < history.length - 1`. -/
def isTimeTraveling (st : MarketDataState) : Bool :=
  st.history.length > 0 ∧ st.timeIndex < (st.history.length : Int) - 1

/-- The 24-hour window in milliseconds. -/
def twentyFourHoursMs : Int := 24 * 60 * 60 * 1000

/-- `TimeTravelFooter`'s `filteredHistory`: the snapshots with
`timestamp >= now - 24h` (a `NaN` timestamp fails the comparison and is
dropped; there is no upper bound in the code). -/
def filteredHistory (now : Int) (history : List MarketSnapshot) :
    List MarketSnapshot :=
  history.filter fun snapshot =>
    jsNumGeB snapshot.timestamp (some (now - twentyFourHoursMs))

/-- `TimeTravelFooter`'s `filteredTimeIndex` (the full-store → window index
translation): `0` when the window is empty; the last window index when
`history[timeIndex]` is `undefined`; otherwise the position of the current
snapshot's timestamp in the window (`findIndex`, modelled by `findIdx`,
which returns the length instead of `-1` when nothing matches — the
source's `indexInFiltered >= 0` test is the `< length` test here), falling
back to the last window index when the timestamp is not in the window. -/
def filteredTimeIndex (now : Int) (history : List MarketSnapshot)
    (timeIndex : Int) : Int :=
  let fh := filteredHistory now history
  if fh.length = 0 then 0
  else
    match jsIndex history timeIndex with
    | none => (fh.length : Int) - 1
    | some currentSnapshot =>
        let indexInFiltered :=
          fh.findIdx fun s => jsNumEqB s.timestamp currentSnapshot.timestamp
        if indexInFiltered < fh.length then (indexInFiltered : Int)
        else (fh.length : Int) - 1

/-- What `TimeTravelFooter`'s `handleTimeIndexChange` (the window → full
index translation) does with a window index. -/
inductive SetIndexResult where
  /-- `filteredHistory[filteredIdx]` was `undefined` and reading its
  `.timestamp` throws a `TypeError`. -/
  | typeError
  /-- No state update: the window was empty, or the timestamp was not found
  in the full store (`originalIdx >= 0` failed). -/
  | noChange
  /-- `setIsPlaying(false); setTimeIndex(originalIdx)`. -/
  | set (originalIdx : Int)
deriving DecidableEq, Repr

/-- `TimeTravelFooter`'s `handleTimeIndexChange`: look the window snapshot
up, then find the first full-store index with a matching timestamp. -/
def handleTimeIndexChange (now : Int) (history : List MarketSnapshot)
    (filteredIdx : Int) : SetIndexResult :=
  let fh := filteredHistory now history
  if fh.length = 0 then .noChange
  else
    match jsIndex fh filteredIdx with
    | none => .typeError
    | some snapshot =>
        let originalIdx :=
          history.findIdx fun s => jsNumEqB s.timestamp snapshot.timestamp
        if originalIdx < history.length then .set (originalIdx : Int)
        else .noChange

/-! ### Concrete fixtures

Closed inputs used by the counterexamples and witnesses below.  `fmt0` and
`gen0` are sample instantiations of the label formatter and of the
market-cap synthesis. -/

def fmt0 : JsTime → String := fun _ => "12:00"

def gen0 : Option String → Option String → String := fun _ _ => "100.00"

def stockBull : Stock :=
  { ticker := some "AAA", sector := some "Technology",
    status := some "BULLISH", signal := some "NONE",
    current_price := "10", daily_change := "0.5", volume := "1000",
    market_cap := "100", strategy_return := "5", rsi := "55",
    sma_50 := "9", sma_200 := "8" }

def stockBull2 : Stock := { stockBull with ticker := some "BBB" }

def stockBear : Stock :=
  { stockBull with ticker := some "CCC", status := some "BEARISH" }

/-- 200 entities of which 29 are bullish: the input on which binary64
arithmetic and exact-rational rounding part ways. -/
def sentimentCex200 : List Stock :=
  List.replicate 29 stockBull ++ List.replicate 171 stockBear

def rawA : RawStock :=
  { ticker := some "A", sector := some "Technology",
    status := some "BULLISH", signal := some "NONE",
    current_price := some "100", daily_change := some "1",
    volume := some "10", market_cap := some "500",
    strategy_return := some "2", rsi := some "60",
    sma_50 := some "101", sma_200 := some "99" }

def rawB : RawStock := { rawA with ticker := some "B" }

def rawNoTicker : RawStock := { rawA with ticker := none }

/-- A historical delta for ticker `A` that also carries a `current_price`. -/
def deltaA : PartialStock :=
  { ticker := some "A", status := some "BEARISH", signal := some "DEATH_CROSS",
    sma_50 := some "50", sma_200 := some "60", current_price := some "999" }

/-- A historical delta whose ticker matches no baseline entity. -/
def deltaZZZ : PartialStock := { deltaA with ticker := some "ZZZ" }

/-- Baseline with tickers `A` and `B`; one historical group (timestamp 5)
holding a delta for `A` only. -/
def rawC4 : RawData := { stockData := [rawA, rawB],
                         historicalSnapshots := [{ timestamp := some 5, stocks := [deltaA] }] }

/-- One historical group whose timestamp does not parse (`NaN`). -/
def rawNaN : RawData := { stockData := [],
                          historicalSnapshots := [{ timestamp := none, stocks := [] }] }

/-- One historical group with a parseable timestamp. -/
def rawParse : RawData := { stockData := [],
                            historicalSnapshots := [{ timestamp := some 5, stocks := [] }] }

/-- A baseline record only, no historical groups. -/
def rawLiveOnly : RawData := { stockData := [rawA], historicalSnapshots := [] }

/-- A baseline record with no identifier, no historical groups. -/
def rawTickerless : RawData := { stockData := [rawNoTicker], historicalSnapshots := [] }

/-- The snapshot `fetchHistory` builds for `rawC4`'s single historical
group. -/
def histSnapC4 : MarketSnapshot :=
  { label := fmt0 (some 5), timestamp := some 5,
    data := mergeGroup (rawC4.stockData.map (normalizeStock gen0)) [deltaA] }

/-- The live snapshot `fetchHistory` builds for `rawC4` at `now = 100`. -/
def liveSnapC4 : MarketSnapshot :=
  { label := "Now (Live)", timestamp := some 100,
    data := rawC4.stockData.map (normalizeStock gen0) }

def snapOldest : MarketSnapshot := { label := "t0", timestamp := some 0, data := [] }

def snapLive1 : MarketSnapshot := { label := "Now (Live)", timestamp := some 1, data := [] }

/-- A loaded 2-element history with playback started at position
`length - 2 = 0`. -/
def stTwo : MarketDataState :=
  { history := [snapOldest, snapLive1], timeIndex := 0, isPlaying := true,
    loading := false }

/-- Window-filter fixture: `now` and a store with one snapshot older than
24 hours and one inside the window. -/
def now0 : Int := 100000000

def snapStale : MarketSnapshot := { label := "stale", timestamp := some 0, data := [] }

def snapFresh : MarketSnapshot :=
  { label := "fresh", timestamp := some 99000000, data := [stockBull] }

def histWindow : List MarketSnapshot := [snapStale, snapFresh]

/-! ### Helper lemmas -/

/-- `buildHistory` unfolded: the mapped historical snapshots followed by the
live snapshot, merge-sorted under the JavaScript comparator. -/
theorem buildHistory_eq_mergeSort (fmt : JsTime → String)
    (gen : Option String → Option String → String)
    (rawData : RawData) (now : Int) :
    buildHistory fmt gen rawData now =
      ((rawData.historicalSnapshots.map fun snap : RawSnap =>
          { label := fmt snap.timestamp
            timestamp := snap.timestamp
            data := mergeGroup (rawData.stockData.map (normalizeStock gen))
                      snap.stocks : MarketSnapshot })
        ++ [{ label := "Now (Live)", timestamp := some now,
              data := rawData.stockData.map (normalizeStock gen)
              : MarketSnapshot }]).mergeSort
        jsSortLe := rfl

/-- A two-element list that already satisfies the comparator is left in
place by the stable sort. -/
theorem mergeSort_pair_sorted (a b : MarketSnapshot) (h : jsSortLe a b) :
    [a, b].mergeSort jsSortLe = [a, b] :=
  List.mergeSort_of_sorted
    (List.pairwise_cons.mpr
      ⟨fun c hc => by
          rw [List.mem_singleton.mp hc]; exact h,
        List.pairwise_singleton _ _⟩)

/-! ### C5 — sentiment -/

set_option maxRecDepth 8192 in
/-- C5 counterexample: at 29 bullish entities of 200, the program's
binary64 evaluation of `(29 / 200) * 100` lands strictly below `14.5`, so
`calculateSentiment` returns `percent = 14`, while the claim's
`round(bullish / total * 100)` over the exact rationals gives `15`. -/
theorem sentiment_round_float_counterexample :
    sentimentCex200.length = 200 ∧
    (sentimentCex200.countP fun s => s.status == some "BULLISH") = 29 ∧
    (calculateSentiment sentimentCex200).percent = 14 ∧
    exactRoundPercent 29 200 = 15 :=
  ⟨by decide, by decide, by decide, by decide⟩

set_option maxRecDepth 8192 in
/-- C5 amended: `calculateSentiment` returns `bullish` = the number of
entities whose status equals the bullish tag, `bearish = total - bullish`,
and `percent = Math.round((bullish / total) * 100)` with the division and
the multiplication evaluated in IEEE binary64 double arithmetic
(`jsPercent`); the empty list yields `\x7bbullish: 0, bearish: 0,
percent: 0\x7d` (no division by zero), and two bullish plus one bearish
entity still yields `\x7bbullish: 2, bearish: 1, percent: 67\x7d`. -/
theorem calculateSentiment_float_spec :
    (∀ stocks : List Stock,
        (calculateSentiment stocks).bullish
            = stocks.countP (fun s => s.status == some "BULLISH") ∧
        (calculateSentiment stocks).bearish
            = stocks.length - stocks.countP (fun s => s.status == some "BULLISH") ∧
        (calculateSentiment stocks).percent
            = jsPercent (stocks.countP (fun s => s.status == some "BULLISH"))
                stocks.length) ∧
    calculateSentiment [] = { bullish := 0, bearish := 0, percent := 0 } ∧
    calculateSentiment [stockBull, stockBull2, stockBear]
        = { bullish := 2, bearish := 1, percent := 67 } := by
  refine ⟨fun stocks => ?_, by decide, by decide⟩
  by_cases h : stocks.length = 0
  · have hs : stocks = [] := List.length_eq_zero.mp h
    subst hs
    exact ⟨rfl, rfl, by decide⟩
  · simp [calculateSentiment, h, List.countP_eq_length_filter]

/-! ### C6 — fetch failure -/

/-- C6: on any non-success outcome (network error, non-success HTTP status,
JSON parse error) `fetchHistory` returns the empty store and logs the error
(the log list is nonempty); being a total function, it throws nothing. -/
theorem fetchHistory_failure (fmt : JsTime → String)
    (gen : Option String → Option String → String)
    (o : FetchOutcome) (now : Int)
    (hfail : ∀ rawData, o ≠ FetchOutcome.success rawData) :
    (fetchHistory fmt gen o now).1 = [] ∧
    (fetchHistory fmt gen o now).2 ≠ [] := by
  cases o with
  | networkError msg => exact ⟨rfl, by simp [fetchHistory]⟩
  | httpError statusText => exact ⟨rfl, by simp [fetchHistory]⟩
  | parseError msg => exact ⟨rfl, by simp [fetchHistory]⟩
  | success rawData => exact absurd rfl (hfail rawData)

/-- Witness for C6 at a concrete network error. -/
theorem fetchHistory_failure_witness :
    (∀ rawData, FetchOutcome.networkError "boom" ≠ FetchOutcome.success rawData) ∧
    ((fetchHistory fmt0 gen0 (FetchOutcome.networkError "boom") 0).1 = [] ∧
     (fetchHistory fmt0 gen0 (FetchOutcome.networkError "boom") 0).2 ≠ []) :=
  ⟨fun _ h => FetchOutcome.noConfusion h,
   fetchHistory_failure fmt0 gen0 (FetchOutcome.networkError "boom") 0
     (fun _ h => FetchOutcome.noConfusion h)⟩

/-! ### C7 — unmatched historical records -/

/-- C7: a partial record whose identifier matches no baseline entity is
discarded, and the group's merged entity list is exactly what it would be
had the record been absent from the input. -/
theorem mergeGroup_unmatched_dropped (liveStocks : List Stock)
    (pre post : List PartialStock) (p : PartialStock)
    (hun : liveStocks.find? (fun s => s.ticker == p.ticker) = none) :
    mergeGroup liveStocks (pre ++ p :: post)
      = mergeGroup liveStocks (pre ++ post) := by
  simp [mergeGroup, hun]

/-- Witness for C7: a delta for the unknown ticker `ZZZ` leaves the merged
group unchanged. -/
theorem mergeGroup_unmatched_dropped_witness :
    ([stockBull].find? (fun s => s.ticker == deltaZZZ.ticker) = none) ∧
    mergeGroup [stockBull] ([] ++ deltaZZZ :: [deltaA])
      = mergeGroup [stockBull] ([] ++ [deltaA]) :=
  ⟨by decide,
   mergeGroup_unmatched_dropped [stockBull] [] [deltaA] deltaZZZ (by decide)⟩

/-! ### C8 — store with no historical groups -/

/-- C8: a successful fetch whose `historicalSnapshots` array is empty yields
a history store of length exactly 1 whose single element is the live
snapshot (reserved label, wall-clock timestamp, baseline entity set). -/
theorem fetchHistory_emptyHistoricals (fmt : JsTime → String)
    (gen : Option String → Option String → String)
    (rawData : RawData) (now : Int)
    (h : rawData.historicalSnapshots = []) :
    (fetchHistory fmt gen (FetchOutcome.success rawData) now).1 =
      [{ label := "Now (Live)", timestamp := some now,
         data := rawData.stockData.map (normalizeStock gen) }] := by
  rw [show (fetchHistory fmt gen (FetchOutcome.success rawData) now).1
        = buildHistory fmt gen rawData now from rfl,
      buildHistory_eq_mergeSort, h]
  simp

/-- Witness for C8 on a one-record baseline. -/
theorem fetchHistory_emptyHistoricals_witness :
    rawLiveOnly.historicalSnapshots = [] ∧
    (fetchHistory fmt0 gen0 (FetchOutcome.success rawLiveOnly) 77).1 =
      [{ label := "Now (Live)", timestamp := some 77,
         data := rawLiveOnly.stockData.map (normalizeStock gen0) }] :=
  ⟨rfl, fetchHistory_emptyHistoricals fmt0 gen0 rawLiveOnly 77 rfl⟩

/-! ### C9 — records with a missing identifier -/

/-- C9 counterexample: a baseline record with no `ticker` is NOT dropped by
the normalization pass — it survives as an entity with an undefined
identifier — and nothing is logged on the success path. -/
theorem normalization_keeps_missing_identifier :
    (rawTickerless.stockData.map (normalizeStock gen0)).length = 1 ∧
    (normalizeStock gen0 rawNoTicker).ticker = none ∧
    (fetchHistory fmt0 gen0 (FetchOutcome.success rawTickerless) 0).2 = [] :=
  ⟨rfl, rfl, rfl⟩

/-- C9 amended: normalization is record-count preserving — every raw
baseline record maps to exactly one entity, its identifier carried over
verbatim (`none` stays `none`) — and a successful fetch logs nothing. -/
theorem normalizeStock_keeps_all_records (fmt : JsTime → String)
    (gen : Option String → Option String → String)
    (rawData : RawData) (now : Int) :
    (rawData.stockData.map (normalizeStock gen)).length
        = rawData.stockData.length ∧
    (∀ item ∈ rawData.stockData, (normalizeStock gen item).ticker = item.ticker) ∧
    (fetchHistory fmt gen (FetchOutcome.success rawData) now).2 = [] :=
  ⟨List.length_map _ _, fun _ _ => rfl, rfl⟩

/-- Witness for C9's amended statement on the tickerless fixture. -/
theorem normalizeStock_keeps_all_records_witness :
    (rawTickerless.stockData.map (normalizeStock gen0)).length
        = rawTickerless.stockData.length ∧
    (∀ item ∈ rawTickerless.stockData,
        (normalizeStock gen0 item).ticker = item.ticker) ∧
    (fetchHistory fmt0 gen0 (FetchOutcome.success rawTickerless) 3).2 = [] :=
  normalizeStock_keeps_all_records fmt0 gen0 rawTickerless 3

/-! ### C10 — empty store reads -/

/-- C10: when the fetch yields an empty store, the position initializes to
`length - 1 = -1` and every public read is total and well-defined: the
derived entity list is `[]`, the label falls back to `'Loading...'`, and
`isTimeTraveling` is false. -/
theorem useMarketData_empty_reads (fmt : JsTime → String)
    (gen : Option String → Option String → String)
    (o : FetchOutcome) (now : Int)
    (hempty : (fetchHistory fmt gen o now).1 = []) :
    (initLoad (fetchHistory fmt gen o now).1).timeIndex = -1 ∧
    stocksOf (initLoad (fetchHistory fmt gen o now).1) = [] ∧
    currentSnapshotLabel (initLoad (fetchHistory fmt gen o now).1)
        = "Loading..." ∧
    isTimeTraveling (initLoad (fetchHistory fmt gen o now).1) = false := by
  rw [hempty]
  exact ⟨by decide, by decide, by decide, by decide⟩

/-- Witness for C10 at a concrete failed fetch. -/
theorem useMarketData_empty_reads_witness :
    (fetchHistory fmt0 gen0 (FetchOutcome.networkError "down") 9).1 = [] ∧
    ((initLoad (fetchHistory fmt0 gen0 (FetchOutcome.networkError "down") 9).1).timeIndex
        = -1 ∧
     stocksOf (initLoad (fetchHistory fmt0 gen0 (FetchOutcome.networkError "down") 9).1)
        = [] ∧
     currentSnapshotLabel
        (initLoad (fetchHistory fmt0 gen0 (FetchOutcome.networkError "down") 9).1)
        = "Loading..." ∧
     isTimeTraveling
        (initLoad (fetchHistory fmt0 gen0 (FetchOutcome.networkError "down") 9).1)
        = false) :=
  ⟨rfl, useMarketData_empty_reads fmt0 gen0 (FetchOutcome.networkError "down") 9 rfl⟩

/-! ### C2 — playback at the end of the store -/

/-- C2 counterexample: with a 2-element history and playback started at
position 0 (= `length - 2`), one tick advances to `length - 1` but the
controller is still playing (`isPlaying = true`) — it does not enter a
halted/AtEnd state on that tick; only the second tick stops it, leaving the
position unchanged. -/
theorem playback_not_halted_after_one_tick :
    (tick stTwo).timeIndex = (stTwo.history.length : Int) - 1 ∧
    (tick stTwo).isPlaying = true ∧
    (tick (tick stTwo)).timeIndex = (stTwo.history.length : Int) - 1 ∧
    (tick (tick stTwo)).isPlaying = false := by decide

/-- C2 amended: from position `length - 2` while playing, the first tick
advances the position by exactly 1 to `length - 1` with playback still
active; the second tick leaves the position at `length - 1` and only then
clears `isPlaying` (the externally visible halt). -/
theorem playback_end_behavior (st : MarketDataState)
    (_hlen : 2 ≤ st.history.length)
    (hidx : st.timeIndex = (st.history.length : Int) - 2)
    (hp : st.isPlaying = true) :
    (tick st).timeIndex = (st.history.length : Int) - 1 ∧
    (tick st).isPlaying = true ∧
    (tick (tick st)).timeIndex = (st.history.length : Int) - 1 ∧
    (tick (tick st)).isPlaying = false := by
  have hadv : ¬ (st.timeIndex ≥ (st.history.length : Int) - 1) := by
    rw [hidx]; omega
  have hstop : st.timeIndex + 1 ≥ (st.history.length : Int) - 1 := by
    rw [hidx]; omega
  have h1 : tick st = { st with timeIndex := st.timeIndex + 1 } := by
    simp [tick, hp, hadv]
  have h2 : tick { st with timeIndex := st.timeIndex + 1 }
      = { st with timeIndex := st.timeIndex + 1, isPlaying := false } := by
    simp [tick, hp, hstop]
  rw [h1, h2]
  exact ⟨by simp only []; omega, hp, by simp only []; omega, rfl⟩

/-- Witness for C2's amended statement on the concrete 2-element history. -/
theorem playback_end_behavior_witness :
    (2 ≤ stTwo.history.length ∧
     stTwo.timeIndex = (stTwo.history.length : Int) - 2 ∧
     stTwo.isPlaying = true) ∧
    ((tick stTwo).timeIndex = (stTwo.history.length : Int) - 1 ∧
     (tick stTwo).isPlaying = true ∧
     (tick (tick stTwo)).timeIndex = (stTwo.history.length : Int) - 1 ∧
     (tick (tick stTwo)).isPlaying = false) :=
  ⟨by decide, playback_end_behavior stTwo (by decide) (by decide) rfl⟩

/-! ### C4 — snapshot entity sets and the merge -/

/-- The concrete store built from `rawC4`: the historical snapshot (which
only carries the merged delta for ticker `A`) followed by the live one. -/
theorem buildHistory_rawC4 :
    buildHistory fmt0 gen0 rawC4 100 = [histSnapC4, liveSnapC4] := by
  rw [buildHistory_eq_mergeSort]
  exact mergeSort_pair_sorted histSnapC4 liveSnapC4 (by decide)

/-- C4 counterexample: the baseline identifier set is `[A, B]`, but the
store contains a snapshot whose entity set carries only `A` — a historical
snapshot's identifier set is a strict subset, not equal to the baseline's —
and that snapshot's merged entity has `current_price` overridden by the
delta (`"999"`), not inherited from the baseline (`"100"`). -/
theorem snapshot_identity_counterexample :
    (rawC4.stockData.map (normalizeStock gen0)).map (·.ticker)
        = [some "A", some "B"] ∧
    histSnapC4 ∈ buildHistory fmt0 gen0 rawC4 100 ∧
    histSnapC4.data.map (·.ticker) = [some "A"] ∧
    histSnapC4.data.map (·.current_price) = ["999"] ∧
    (rawC4.stockData.map (normalizeStock gen0)).map (·.current_price)
        = ["100", "100"] := by
  refine ⟨by decide, ?_, by decide, by decide, by decide⟩
  rw [buildHistory_rawC4]
  exact List.mem_cons_self _ _

/-- C4 amended: every entity of every store snapshot descends from a
baseline entity with the same identifier; the fields the delta cannot touch
(`sector`, `daily_change`, `volume`, `market_cap`, `strategy_return`,
`rsi`) are inherited unchanged, and the entity is either the baseline
entity itself (live snapshot) or the merge of the baseline entity with some
delta (which sets `status`, `signal` and the moving averages from the
delta and lets any further field present on the delta override the
baseline). -/
theorem snapshot_entities_from_baseline (fmt : JsTime → String)
    (gen : Option String → Option String → String)
    (rawData : RawData) (now : Int) :
    ∀ snap ∈ buildHistory fmt gen rawData now, ∀ m ∈ snap.data,
      ∃ base ∈ rawData.stockData.map (normalizeStock gen),
        m.ticker = base.ticker ∧ m.sector = base.sector ∧
        m.daily_change = base.daily_change ∧ m.volume = base.volume ∧
        m.market_cap = base.market_cap ∧
        m.strategy_return = base.strategy_return ∧ m.rsi = base.rsi ∧
        (m = base ∨ ∃ p : PartialStock, m = mergeStock base p) := by
  intro snap hsnap m hm
  rw [buildHistory_eq_mergeSort, List.mem_mergeSort] at hsnap
  rcases List.mem_append.mp hsnap with hh | hl
  · rcases List.mem_map.mp hh with ⟨snapRaw, _, rfl⟩
    have hm2 : m ∈ List.filterMap id
        ((snapRaw.stocks.map fun p =>
          ((rawData.stockData.map (normalizeStock gen)).find?
              fun s => s.ticker == p.ticker).map
            fun baseStock => mergeStock baseStock p)) := hm
    rcases List.mem_filterMap.mp hm2 with ⟨o, ho, hid⟩
    rcases List.mem_map.mp ho with ⟨p, _, rfl⟩
    cases hfind : (rawData.stockData.map (normalizeStock gen)).find?
        (fun s => s.ticker == p.ticker) with
    | none => rw [hfind] at hid; simp at hid
    | some base =>
        rw [hfind] at hid
        have hm' : m = mergeStock base p := by simpa using hid.symm
        have hbase := List.mem_of_find?_eq_some hfind
        have htick : base.ticker = p.ticker := by
          have := List.find?_some hfind
          simpa using this
        subst hm'
        refine ⟨base, hbase, ?_, rfl, rfl, rfl, rfl, rfl, rfl,
          Or.inr ⟨p, rfl⟩⟩
        show p.ticker.or base.ticker = base.ticker
        cases hp : p.ticker with
        | none => simp
        | some t => rw [htick, hp]; rfl
  · have hlive := List.mem_singleton.mp hl
    subst hlive
    exact ⟨m, hm, rfl, rfl, rfl, rfl, rfl, rfl, rfl, Or.inl rfl⟩

/-- Witness for C4's amended statement: the live snapshot's single entity
descends from the baseline record. -/
theorem snapshot_entities_from_baseline_witness :
    ∃ base ∈ rawLiveOnly.stockData.map (normalizeStock gen0),
      (normalizeStock gen0 rawA).ticker = base.ticker ∧
      (normalizeStock gen0 rawA).sector = base.sector ∧
      (normalizeStock gen0 rawA).daily_change = base.daily_change ∧
      (normalizeStock gen0 rawA).volume = base.volume ∧
      (normalizeStock gen0 rawA).market_cap = base.market_cap ∧
      (normalizeStock gen0 rawA).strategy_return = base.strategy_return ∧
      (normalizeStock gen0 rawA).rsi = base.rsi ∧
      (normalizeStock gen0 rawA = base ∨
        ∃ p : PartialStock, normalizeStock gen0 rawA = mergeStock base p) :=
  snapshot_entities_from_baseline fmt0 gen0 rawLiveOnly 100
    { label := "Now (Live)", timestamp := some 100,
      data := [normalizeStock gen0 rawA] }
    (by rw [buildHistory_eq_mergeSort]; simp [rawLiveOnly])
    (normalizeStock gen0 rawA) (List.mem_singleton.mpr rfl)

/-! ### C1 — the sort invariant -/

/-- C1 counterexample: a historical group whose timestamp does not parse
(`NaN`) produces a store whose adjacent timestamps are `[NaN, now]`, and
`NaN <= x` is false in JavaScript — the sort invariant
`store[i].timestamp <= store[i+1].timestamp` fails at `i = 0`. -/
theorem store_sorted_counterexample :
    (buildHistory fmt0 gen0 rawNaN 0).map (·.timestamp) = [none, some 0] ∧
    ¬ List.Chain' jsNumLe ((buildHistory fmt0 gen0 rawNaN 0).map (·.timestamp)) := by
  have hb : buildHistory fmt0 gen0 rawNaN 0 =
      [{ label := fmt0 none, timestamp := none, data := [] },
       { label := "Now (Live)", timestamp := some 0, data := [] }] := by
    rw [buildHistory_eq_mergeSort]
    exact mergeSort_pair_sorted _ _ (by decide)
  rw [hb]
  refine ⟨rfl, fun hc => ?_⟩
  exact (List.chain'_cons.mp hc).1

/-- C1 amended: whenever every historical group's timestamp parses (no
`NaN` admitted), the constructed store is sorted — adjacent timestamps
satisfy `store[i].timestamp <= store[i+1].timestamp` for every valid
index. -/
theorem store_sorted_of_parseable (fmt : JsTime → String)
    (gen : Option String → Option String → String)
    (rawData : RawData) (now : Int)
    (hparse : ∀ snap ∈ rawData.historicalSnapshots, snap.timestamp.isSome) :
    List.Chain' jsNumLe ((buildHistory fmt gen rawData now).map (·.timestamp)) := by
  rw [buildHistory_eq_mergeSort]
  set L := ((rawData.historicalSnapshots.map fun snap : RawSnap =>
      { label := fmt snap.timestamp
        timestamp := snap.timestamp
        data := mergeGroup (rawData.stockData.map (normalizeStock gen))
                  snap.stocks : MarketSnapshot })
    ++ [{ label := "Now (Live)", timestamp := some now,
          data := rawData.stockData.map (normalizeStock gen)
          : MarketSnapshot }]) with hL
  have hall : ∀ s ∈ L, s.timestamp.isSome := by
    intro s hs
    rw [hL] at hs
    rcases List.mem_append.mp hs with hh | hl
    · rcases List.mem_map.mp hh with ⟨snapRaw, hsr, rfl⟩
      exact hparse snapRaw hsr
    · rw [List.mem_singleton.mp hl]
      rfl
  have heq : L.mergeSort jsSortLe = L.mergeSort numTsLe := by
    have hmap := List.map_mergeSort (r := jsSortLe) (s := numTsLe)
      (f := id) (l := L) ?_
    · simpa using hmap
    · intro a ha b hb
      rcases Option.isSome_iff_exists.mp (hall a ha) with ⟨x, hx⟩
      rcases Option.isSome_iff_exists.mp (hall b hb) with ⟨y, hy⟩
      simp [jsSortLe, numTsLe, hx, hy]
  rw [heq]
  have hsorted : (L.mergeSort numTsLe).Pairwise
      (fun a b => numTsLe a b = true) := List.sorted_mergeSort
    (fun a b c hab hbc => by
      simp only [numTsLe, decide_eq_true_eq] at *
      omega)
    (fun a b => by
      simp only [numTsLe, Bool.or_eq_true, decide_eq_true_eq]
      omega) L
  have hsome : ∀ s ∈ L.mergeSort numTsLe, s.timestamp.isSome := fun s hs =>
    hall s (List.mem_mergeSort.mp hs)
  have hpw : (L.mergeSort numTsLe).Pairwise
      (fun a b => jsNumLe a.timestamp b.timestamp) := by
    refine hsorted.imp_of_mem ?_
    intro a b ha hb hab
    rcases Option.isSome_iff_exists.mp (hsome a ha) with ⟨x, hx⟩
    rcases Option.isSome_iff_exists.mp (hsome b hb) with ⟨y, hy⟩
    rw [hx, hy]
    simp only [numTsLe, hx, hy, Option.getD_some, decide_eq_true_eq] at hab
    exact hab
  exact List.chain'_map_of_chain' (S := jsNumLe)
    (fun s : MarketSnapshot => s.timestamp) (fun _ _ hab => hab) hpw.chain'

/-- Witness for C1's amended statement on a parseable one-group feed. -/
theorem store_sorted_of_parseable_witness :
    (∀ snap ∈ rawParse.historicalSnapshots, snap.timestamp.isSome) ∧
    List.Chain' jsNumLe ((buildHistory fmt0 gen0 rawParse 10).map (·.timestamp)) :=
  ⟨by decide, store_sorted_of_parseable fmt0 gen0 rawParse 10 (by decide)⟩

/-! ### C3 — window/full index translation -/

/-- A timestamp strictly equal (in the JavaScript sense) to a numeric one
is that numeric value. -/
theorem jsNumEqB_some {x : JsTime} {v : Int}
    (h : jsNumEqB x (some v) = true) : x = some v := by
  cases x with
  | none => simp [jsNumEqB] at h
  | some u =>
      simp only [jsNumEqB, beq_iff_eq] at h
      rw [h]

/-- Chaining JavaScript timestamp equality with a known numeric value. -/
theorem jsNumEqB_trans_some {x y : JsTime} {v : Int}
    (hxy : jsNumEqB x y = true) (hy : y = some v) : x = some v :=
  jsNumEqB_some (hy ▸ hxy)

/-- JavaScript indexing with a natural index inside the range. -/
theorem jsIndex_natCast (l : List α) (i : Nat) (hi : i < l.length) :
    jsIndex l (i : Int) = some (l.get ⟨i, hi⟩) := by
  unfold jsIndex
  rw [if_neg (by omega), Int.toNat_natCast]
  exact List.get?_eq_get hi

/-- Full-store → window translation, in-window case: when the snapshot at a
valid full index carries a numeric timestamp inside the window, the
translation returns a valid window index holding the same timestamp. -/
theorem filteredTimeIndex_of_mem (now : Int) (history : List MarketSnapshot)
    (i : Nat) (hi : i < history.length) (v : Int)
    (hv : (history.get ⟨i, hi⟩).timestamp = some v)
    (hlo : now - twentyFourHoursMs ≤ v) :
    ∃ w : Nat, ∃ hw : w < (filteredHistory now history).length,
      filteredTimeIndex now history (i : Int) = (w : Int) ∧
      ((filteredHistory now history).get ⟨w, hw⟩).timestamp = some v := by
  have hjsidx := jsIndex_natCast history i hi
  have hpred : jsNumGeB (history.get ⟨i, hi⟩).timestamp
      (some (now - twentyFourHoursMs)) = true := by
    rw [hv]; exact decide_eq_true hlo
  have hmemfh : history.get ⟨i, hi⟩ ∈ filteredHistory now history :=
    List.mem_filter.mpr ⟨List.get_mem _ _ _, hpred⟩
  have hfhlen : ¬ (filteredHistory now history).length = 0 := by
    intro h0
    rw [List.length_eq_zero.mp h0] at hmemfh
    exact (List.not_mem_nil _) hmemfh
  have hexw : ∃ x ∈ filteredHistory now history,
      (jsNumEqB x.timestamp (history.get ⟨i, hi⟩).timestamp) = true := by
    refine ⟨_, hmemfh, ?_⟩
    rw [hv]
    simp [jsNumEqB]
  have hw : (filteredHistory now history).findIdx
        (fun s => jsNumEqB s.timestamp (history.get ⟨i, hi⟩).timestamp)
      < (filteredHistory now history).length :=
    List.findIdx_lt_length_of_exists hexw
  refine ⟨_, hw, ?_, ?_⟩
  · simp only [filteredTimeIndex]
    rw [if_neg hfhlen, hjsidx]
    simp only []
    rw [if_pos hw]
  · exact jsNumEqB_trans_some (List.findIdx_get (w := hw)) hv

/-- Window → full translation: a valid window index holding a numeric
timestamp maps to a valid full index holding the same timestamp, via
`setTimeIndex`. -/
theorem handleTimeIndexChange_of_window (now : Int)
    (history : List MarketSnapshot) (w : Nat)
    (hw : w < (filteredHistory now history).length) (v : Int)
    (hnum : ((filteredHistory now history).get ⟨w, hw⟩).timestamp = some v) :
    ∃ j : Nat, ∃ hj : j < history.length,
      handleTimeIndexChange now history (w : Int) = SetIndexResult.set (j : Int) ∧
      (history.get ⟨j, hj⟩).timestamp = some v := by
  have hjsidx := jsIndex_natCast (filteredHistory now history) w hw
  have hfhlen : ¬ (filteredHistory now history).length = 0 := by omega
  have hthist : (filteredHistory now history).get ⟨w, hw⟩ ∈ history :=
    (List.mem_filter.mp (List.get_mem _ _ _)).1
  have hex : ∃ x ∈ history,
      (jsNumEqB x.timestamp
        ((filteredHistory now history).get ⟨w, hw⟩).timestamp) = true := by
    refine ⟨_, hthist, ?_⟩
    rw [hnum]
    simp [jsNumEqB]
  have hj : history.findIdx
        (fun s => jsNumEqB s.timestamp
          ((filteredHistory now history).get ⟨w, hw⟩).timestamp)
      < history.length := List.findIdx_lt_length_of_exists hex
  refine ⟨_, hj, ?_, ?_⟩
  · simp only [handleTimeIndexChange]
    rw [if_neg hfhlen, hjsidx]
    simp only []
    rw [if_pos hj]
  · exact jsNumEqB_trans_some (List.findIdx_get (w := hj)) hnum

/-- C3: for every store and valid full index `i`, (a) when the snapshot at
`i` has a timestamp inside `[now - 24h, now]`, translating `i` into the
window and back produces, via `setTimeIndex`, a valid full index whose
snapshot timestamp is inside the window; (b) when the snapshot at `i`
predates the window (and the window is nonempty, so that a newest window
index exists), the window index collapses to the last window index instead
of failing. -/
theorem window_index_translation (now : Int) (history : List MarketSnapshot)
    (i : Nat) (hi : i < history.length) :
    (jsNumLe (some (now - twentyFourHoursMs)) (history.get ⟨i, hi⟩).timestamp →
      jsNumLe (history.get ⟨i, hi⟩).timestamp (some now) →
      ∃ j : Nat, ∃ hj : j < history.length,
        handleTimeIndexChange now history
            (filteredTimeIndex now history (i : Int)) = SetIndexResult.set (j : Int) ∧
        jsNumLe (some (now - twentyFourHoursMs)) (history.get ⟨j, hj⟩).timestamp ∧
        jsNumLe (history.get ⟨j, hj⟩).timestamp (some now)) ∧
    (jsNumLt (history.get ⟨i, hi⟩).timestamp (some (now - twentyFourHoursMs)) →
      filteredHistory now history ≠ [] →
      filteredTimeIndex now history (i : Int)
          = ((filteredHistory now history).length : Int) - 1) := by
  constructor
  · intro h1 h2
    obtain ⟨v, hv⟩ : ∃ v, (history.get ⟨i, hi⟩).timestamp = some v := by
      cases hts : (history.get ⟨i, hi⟩).timestamp with
      | some v => exact ⟨v, rfl⟩
      | none => rw [hts] at h1; exact h1.elim
    have hlo : now - twentyFourHoursMs ≤ v := by rw [hv] at h1; exact h1
    have hup : v ≤ now := by rw [hv] at h2; exact h2
    obtain ⟨w, hw, hft, hts⟩ :=
      filteredTimeIndex_of_mem now history i hi v hv hlo
    obtain ⟨j, hj, hset, hjts⟩ :=
      handleTimeIndexChange_of_window now history w hw v hts
    refine ⟨j, hj, ?_, ?_, ?_⟩
    · rw [hft]; exact hset
    · rw [hjts]; exact hlo
    · rw [hjts]; exact hup
  · intro hlt hne
    obtain ⟨v, hv⟩ : ∃ v, (history.get ⟨i, hi⟩).timestamp = some v := by
      cases hts : (history.get ⟨i, hi⟩).timestamp with
      | some v => exact ⟨v, rfl⟩
      | none => rw [hts] at hlt; exact hlt.elim
    have hvlt : v < now - twentyFourHoursMs := by rw [hv] at hlt; exact hlt
    have hjsidx := jsIndex_natCast history i hi
    have hall : ∀ x ∈ filteredHistory now history,
        (fun s => jsNumEqB s.timestamp (history.get ⟨i, hi⟩).timestamp) x
          = false := by
      intro x hx
      have hp := (List.mem_filter.mp hx).2
      cases hxts : x.timestamp with
      | none => rw [hv]; simp [jsNumEqB, hxts]
      | some u =>
          rw [hxts] at hp
          have hu : now - twentyFourHoursMs ≤ u := of_decide_eq_true hp
          show jsNumEqB x.timestamp (history.get ⟨i, hi⟩).timestamp = false
          rw [hv, hxts]
          simp only [jsNumEqB, beq_eq_false_iff_ne, ne_eq]
          omega
    have hlen0 : ¬ (filteredHistory now history).length = 0 :=
      fun h0 => hne (List.length_eq_zero.mp h0)
    have hidxeq : (filteredHistory now history).findIdx
          (fun s => jsNumEqB s.timestamp (history.get ⟨i, hi⟩).timestamp)
        = (filteredHistory now history).length :=
      List.findIdx_eq_length_of_false hall
    simp only [filteredTimeIndex]
    rw [if_neg hlen0, hjsidx]
    simp only []
    rw [hidxeq, if_neg (lt_irrefl _)]

/-- Witness for C3 on a concrete two-snapshot store: index 1 is inside the
window; index 0 predates it. -/
theorem window_index_translation_witness :
    (1 < histWindow.length) ∧
    ((jsNumLe (some (now0 - twentyFourHoursMs))
        (histWindow.get ⟨1, by decide⟩).timestamp →
      jsNumLe (histWindow.get ⟨1, by decide⟩).timestamp (some now0) →
      ∃ j : Nat, ∃ hj : j < histWindow.length,
        handleTimeIndexChange now0 histWindow
            (filteredTimeIndex now0 histWindow ((1 : Nat) : Int))
          = SetIndexResult.set (j : Int) ∧
        jsNumLe (some (now0 - twentyFourHoursMs))
          (histWindow.get ⟨j, hj⟩).timestamp ∧
        jsNumLe (histWindow.get ⟨j, hj⟩).timestamp (some now0)) ∧
     (jsNumLt (histWindow.get ⟨1, by decide⟩).timestamp
        (some (now0 - twentyFourHoursMs)) →
      filteredHistory now0 histWindow ≠ [] →
      filteredTimeIndex now0 histWindow ((1 : Nat) : Int)
          = ((filteredHistory now0 histWindow).length : Int) - 1)) :=
  ⟨by decide, window_index_translation now0 histWindow 1 (by decide)⟩

end MarketMatrix
